import Mathlib

/-!
Verification of the govrageremote client (src/client.go), a Go client for the
Space Engineers VRage remote-administration HTTP API.

The embedding below translates the protocol core of `client.go` into Lean:

* `scanResponse` (src lines 764-824): URL construction, JSON body
  marshalling, request construction, the nonce fetch-and-increment,
  base64 key decoding, HMAC-SHA1 signing of the canonical string, and the
  request headers.  The HTTP transport itself and the JSON decoding of the
  response body are external collaborators; `scanResponse` here returns the
  fully built signed request (or the error taken before dispatch) together
  with the updated client state.  The HMAC-SHA1 compression itself is a Go
  standard-library primitive and is passed in as an opaque function
  `HmacFn`; everything around it (key decoding, canonical string, base64
  encoding of the digest, header layout) is modelled concretely.
* envelope handling of the public operations (`GetGrids`, `StopServer`,
  src lines 413-423 and 537-552) given the decoded envelope.
* the entity model (`VRageRemoteGrid`, positions) with the back-reference
  wiring performed by `GetGrids`, and `VRageRemoteGrid.Delete` /
  `DeleteGrid` (src lines 264-266, 553-563).
* the spatial helper `GetNearestGridsIf` (src lines 211-229): filter then
  `sort.SliceStable` by distance.  `sort.SliceStable` is modelled by a
  stable insertion sort `sortT`; float64 coordinates are idealised as
  exact rationals and, since `math.Sqrt` is strictly monotone on
  nonnegative reals, the comparison `Distance a < Distance b` is modelled
  by the equivalent comparison of squared distances.
* the tick/time conversions (src lines 40-45) and
  `VRageChatMessage.GetRealTimestamp` (src lines 323-326) with a faithful
  model of `strconv.ParseInt(s, 10, 64)`.  `time.Time` values are
  represented by their (unbounded) unix-nanosecond value; the float64
  arithmetic of `ticksFromTime` is idealised as exact rational arithmetic
  followed by Go's truncating float-to-int64 conversion.

Machine int64 values are represented as `Int` with explicit wraparound
(`wrap64`) where the code can overflow (the nonce counter).
-/

/-- UTF-8 encoding of one character (the byte sequence Go obtains from
`[]byte(s)` for each rune). -/
def utf8EncodeCharM (c : Char) : List Nat :=
  let n := c.toNat
  if n < 0x80 then [n]
  else if n < 0x800 then
    [0xC0 ||| (n >>> 6), 0x80 ||| (n &&& 0x3F)]
  else if n < 0x10000 then
    [0xE0 ||| (n >>> 12), 0x80 ||| ((n >>> 6) &&& 0x3F), 0x80 ||| (n &&& 0x3F)]
  else
    [0xF0 ||| (n >>> 18), 0x80 ||| ((n >>> 12) &&& 0x3F),
     0x80 ||| ((n >>> 6) &&& 0x3F), 0x80 ||| (n &&& 0x3F)]

/-- The bytes of a Go string (`[]byte(s)`): UTF-8. -/
def utf8Bytes (s : String) : List Nat :=
  s.data.flatMap utf8EncodeCharM

/-- Standard base64 alphabet (Go `encoding/base64.StdEncoding`). -/
def b64Alphabet : List Char :=
  "ABCDEFGHIJKLMNOPQRSTUVWXYZabcdefghijklmnopqrstuvwxyz0123456789+/".data

/-- Character for a 6-bit group. -/
def b64Char (n : Nat) : Char := b64Alphabet.getD n 'A'

/-- Go `base64.StdEncoding.EncodeToString`. -/
def base64Encode : List Nat → String
  | [] => ""
  | [a] =>
    String.mk [b64Char (a / 4), b64Char (a % 4 * 16), '=', '=']
  | [a, b] =>
    String.mk [b64Char (a / 4), b64Char (a % 4 * 16 + b / 16), b64Char (b % 16 * 4), '=']
  | a :: b :: c :: rest =>
    String.mk [b64Char (a / 4), b64Char (a % 4 * 16 + b / 16),
               b64Char (b % 16 * 4 + c / 64), b64Char (c % 64)] ++ base64Encode rest

/-- Value of one base64 alphabet character, `none` for anything else
(including the padding character). -/
def b64Val (c : Char) : Option Nat :=
  let n := c.toNat
  if 65 ≤ n ∧ n ≤ 90 then some (n - 65)
  else if 97 ≤ n ∧ n ≤ 122 then some (n - 97 + 26)
  else if 48 ≤ n ∧ n ≤ 57 then some (n - 48 + 52)
  else if c = '+' then some 62
  else if c = '/' then some 63
  else none

/-- Decode base64 quanta of four characters; padding is only legal in the
final quantum, and any input whose length is not a multiple of four is
rejected, as in Go `base64.StdEncoding.DecodeString`. -/
def base64DecodeChars : List Char → Option (List Nat)
  | [] => some []
  | [a, b, '=', '='] => do
      let va ← b64Val a
      let vb ← b64Val b
      some [va * 4 + vb / 16]
  | [a, b, c, '='] => do
      let va ← b64Val a
      let vb ← b64Val b
      let vc ← b64Val c
      some [va * 4 + vb / 16, vb % 16 * 16 + vc / 4]
  | a :: b :: c :: d :: rest => do
      let va ← b64Val a
      let vb ← b64Val b
      let vc ← b64Val c
      let vd ← b64Val d
      let tail ← base64DecodeChars rest
      some ([va * 4 + vb / 16, vb % 16 * 16 + vc / 4, vc % 4 * 64 + vd] ++ tail)
  | _ => none

/-- Go `base64.StdEncoding.DecodeString` (used on the client key, src line
792); carriage returns and newlines are ignored, as in Go. -/
def base64Decode (s : String) : Option (List Nat) :=
  base64DecodeChars (s.data.filter (fun c => !(c = '\r' || c = '\n')))

/-- Upper-case hex digit. -/
def hexUpper (n : Nat) : Char :=
  if n < 10 then Char.ofNat (48 + n) else Char.ofNat (55 + n)

/-- Escaping of one byte in Go `url.QueryEscape`: space becomes `+`,
unreserved bytes stay, everything else is percent-encoded. -/
def queryEscapeByte (b : Nat) : List Char :=
  if b = 32 then ['+']
  else if (65 ≤ b ∧ b ≤ 90) ∨ (97 ≤ b ∧ b ≤ 122) ∨ (48 ≤ b ∧ b ≤ 57)
      ∨ b = 45 ∨ b = 95 ∨ b = 46 ∨ b = 126 then [Char.ofNat b]
  else ['%', hexUpper (b / 16), hexUpper (b % 16)]

/-- Go `url.QueryEscape`. -/
def queryEscape (s : String) : String :=
  String.mk ((utf8Bytes s).flatMap queryEscapeByte)

/-- Stable insertion into a list: `x` is placed before the first element
that is not less than it, so earlier-inserted equals stay behind later
ones.  Together with `sortT` this models the contract of Go
`sort.SliceStable` for the given less-than function. -/
def insT (lt : α → α → Bool) (x : α) : List α → List α
  | [] => [x]
  | y :: ys => if lt y x then y :: insT lt x ys else x :: y :: ys

/-- Stable sort with respect to a less-than function, modelling the
semantic contract of Go `sort.SliceStable` (src line 224): the result is a
permutation of the input, ordered by `lt`, and elements that compare equal
keep their original relative order. -/
def sortT (lt : α → α → Bool) : List α → List α
  | [] => []
  | x :: xs => insT lt x (sortT lt xs)

/-- Go `url.Values.Encode`: keys sorted, each value percent-encoded as
`k=v`, joined by `&`.  Values maps are modelled as association lists from
key to value list. -/
def urlValuesEncode (q : List (String × List String)) : String :=
  let sorted := sortT (fun a b => decide (a.1 < b.1)) q
  String.intercalate "&"
    (sorted.flatMap (fun kv => kv.2.map (fun v => queryEscape kv.1 ++ "=" ++ queryEscape v)))

/-- Escaping of one character in Go `encoding/json` string encoding (HTML
escaping on, the `json.Marshal` default used at src line 776). -/
def jsonEscapeChar (c : Char) : String :=
  if c = '"' then "\\\""
  else if c = '\\' then "\\\\"
  else if c = '\n' then "\\n"
  else if c = '\r' then "\\r"
  else if c = '\t' then "\\t"
  else if c = '<' then "\\u003c"
  else if c = '>' then "\\u003e"
  else if c = '&' then "\\u0026"
  else if c.toNat < 0x20 then
    "\\u00" ++ String.mk [hexUpper (c.toNat / 16), (hexUpper (c.toNat % 16)).toLower]
  else if c.toNat = 0x2028 then "\\u2028"
  else if c.toNat = 0x2029 then "\\u2029"
  else String.singleton c

/-- Go `json.Marshal` applied to a string value: a quoted, escaped JSON
string literal.  This is what src line 776 produces for the `SendChat`
body. -/
def jsonMarshalString (s : String) : String :=
  "\"" ++ String.join (s.data.map jsonEscapeChar) ++ "\""

/-- Characters legal in an HTTP method token (Go `net/http` `isTokenTable`). -/
def isTokenChar (c : Char) : Bool :=
  c.isAlphanum || "!#$%&\x27*+-.^_\x60|~".data.contains c

/-- Go `net/http` method validation inside `http.NewRequest`; the empty
method is replaced by GET before validation. -/
def validMethod (m : String) : Bool :=
  if m.isEmpty then true else m.data.all isTokenChar

/-- ASCII control characters make Go `url.Parse`, and therefore
`http.NewRequest` (src line 783), fail.  Other, rarer `url.Parse` failure
modes (malformed percent escapes, bad host syntax) are not modelled; they
occur at exactly the same point of `scanResponse`, before the nonce is
touched. -/
def containsCtlByte (s : String) : Bool :=
  s.data.any (fun c => c.toNat < 0x20 || c.toNat = 0x7f)

/-- Whether `http.NewRequest method urlStr` succeeds (src lines 783-786). -/
def newRequestOk (method urlStr : String) : Bool :=
  validMethod method && !containsCtlByte urlStr

/-- int64 wraparound: Go's `client.nonce++` silently wraps at 2^63 - 1.
The literals are 2^63 and 2^64. -/
def wrap64 (n : Int) : Int :=
  (n + 9223372036854775808) % 18446744073709551616 - 9223372036854775808

/-- Position of an entity (src lines 59-63); float64 coordinates idealised
as exact rationals. -/
structure VRagePosition where
  X : ℚ
  Y : ℚ
  Z : ℚ

deriving instance DecidableEq for VRagePosition

/-- Square of `VRagePosition.DistanceTo` (src lines 65-70) and of the
package-level `Distance` (src lines 836-843).  The `math.Sqrt` of the
source is omitted: it is strictly monotone on nonnegative reals, so every
comparison of distances used by the code is equivalent to the same
comparison of these squared distances. -/
def distSqTo (pos other : VRagePosition) : ℚ :=
  let x := other.X - pos.X
  let y := other.Y - pos.Y
  let z := other.Z - pos.Z
  x * x + y * y + z * z

/-- The client state (src lines 51-57).  The `http.Client` transport
handle is external and carries no protocol state; the int64 nonce is an
`Int` kept in int64 range by `wrap64`. -/
structure VRageRemoteClient where
  BaseURL : String
  RemoteAddress : String
  Key : String
  nonce : Int

deriving instance DecidableEq for VRageRemoteClient

/-- `NewVRageRemoteClient` (src lines 826-834); the nonce is seeded with
`time.Now().UnixNano()`, supplied here as the external clock reading. -/
def NewVRageRemoteClient (remoteAddress key : String) (nowUnixNano : Int) : VRageRemoteClient :=
  { BaseURL := "/vrageremote/v1"
    RemoteAddress := remoteAddress
    Key := key
    nonce := nowUnixNano }

/-- The resource URL built by `scanResponse` (src lines 768-772): base
path, slash, resource, and the encoded query string when the query values
are non-nil and non-empty.  It deliberately takes only the base path, not
the remote address. -/
def methodURLOf (baseURL resource : String) (query : Option (List (String × List String))) :
    String :=
  let m := baseURL ++ "/" ++ resource
  match query with
  | some q => if 0 < q.length then m ++ "?" ++ urlValuesEncode q else m
  | none => m

/-- The opaque HMAC-SHA1 primitive (Go `crypto/hmac` with `crypto/sha1`):
key bytes and message bytes to digest bytes. -/
def HmacFn : Type := List Nat → List Nat → List Nat

/-- Errors `scanResponse` can return before dispatching the request:
request construction failure (src lines 783-786) and key decoding failure
(src lines 792-795). -/
inductive ScanError where
  | newRequestError : ScanError
  | keyDecodingError : ScanError

deriving instance DecidableEq for ScanError

/-- The fully built signed request handed to the transport by
`scanResponse`: method, absolute URL, the signed resource URL, the nonce
value whose decimal form was signed, and the headers and body set at src
lines 801-805.  `nonceUsed` is the integer whose `fmt.Sprint` rendering
appears in the Authorization header. -/
structure SignedRequest where
  method : String
  url : String
  methodURL : String
  nonceUsed : Int
  authorization : String
  dateHeader : String
  contentType : Option String
  body : Option String

deriving instance DecidableEq for SignedRequest

/-- `scanResponse` up to the point where the request is handed to the
transport (src lines 764-806).  The body of the Go function is one
critical section of the global `requestMutex` (src lines 36, 765-766), so
concurrent invocations execute as some sequential interleaving of whole
calls; this function is that atomic step.  The request date is the
formatted `time.Now().UTC().Format(time.RFC1123Z)` string, supplied as the
external clock reading.  Steps in source order: build the resource URL,
marshal the JSON body, construct the request (can fail, state untouched),
fetch and increment the nonce, decode the base64 key (can fail, nonce
already advanced), sign, set headers. -/
def scanResponse (h : HmacFn) (c : VRageRemoteClient) (method resource : String)
    (query : Option (List (String × List String))) (body : Option String) (date : String) :
    Except ScanError SignedRequest × VRageRemoteClient :=
  let methodURL := methodURLOf c.BaseURL resource query
  let bodyBytes := body.map jsonMarshalString
  if newRequestOk method (c.RemoteAddress ++ methodURL) then
    let nounce := toString c.nonce
    let c2 : VRageRemoteClient := { c with nonce := wrap64 (c.nonce + 1) }
    match base64Decode c.Key with
    | none => (Except.error ScanError.keyDecodingError, c2)
    | some keyDecoded =>
      let hash := h keyDecoded (utf8Bytes (methodURL ++ "\r\n" ++ nounce ++ "\r\n" ++ date ++ "\r\n"))
      let encodedHash := base64Encode hash
      (Except.ok
        { method := method
          url := c.RemoteAddress ++ methodURL
          methodURL := methodURL
          nonceUsed := c.nonce
          authorization := nounce ++ ":" ++ encodedHash
          dateHeader := date
          contentType := if body.isSome then some "application/json" else none
          body := bodyBytes }, c2)
  else (Except.error ScanError.newRequestError, c)

/-- One logical call through the client: the per-call inputs of
`scanResponse` other than the client state. -/
structure CallSpec where
  method : String
  resource : String
  query : Option (List (String × List String))
  body : Option String
  date : String

/-- A sequence of calls issued through one client instance.  Because the
whole body of `scanResponse` runs under the global `requestMutex`, any
concurrent execution is equal to running some sequence of whole calls one
after the other; this function ranges over all such serialised traces. -/
def runCalls (h : HmacFn) : VRageRemoteClient → List CallSpec →
    List (Except ScanError SignedRequest) × VRageRemoteClient
  | c, [] => ([], c)
  | c, s :: rest =>
    let p := scanResponse h c s.method s.resource s.query s.body s.date
    let rs := runCalls h p.2 rest
    (p.1 :: rs.1, rs.2)

/-- The integer nonce values actually signed by the requests of a trace
(calls that fail before signing contribute nothing). -/
def signedNonces (l : List (Except ScanError SignedRequest)) : List Int :=
  l.filterMap (fun r =>
    match r with
    | Except.ok req => some req.nonceUsed
    | Except.error _ => none)

/-- Envelope error object (src lines 80-82). -/
structure VRageRemoteResponseError where
  Message : String

deriving instance DecidableEq for VRageRemoteResponseError

/-- Envelope meta object (src lines 76-79); float64 idealised as ℚ. -/
structure VRageRemoteResponseMeta where
  ApiVersion : String
  QueryTime : ℚ

deriving instance DecidableEq for VRageRemoteResponseMeta

/-- The response envelope (src lines 72-75); Go nil pointers are `none`. -/
structure VRageRemoteResponse where
  Error : Option VRageRemoteResponseError
  Meta : Option VRageRemoteResponseMeta

deriving instance DecidableEq for VRageRemoteResponse

/-- A grid entity (src lines 242-256); float64 fields idealised as ℚ, the
unexported back-reference `client` is `none` until wired. -/
structure VRageRemoteGrid where
  client : Option VRageRemoteClient
  DisplayName : String
  EntityID : Int
  GridSize : String
  BlocksCount : Int
  Mass : ℚ
  Position : VRagePosition
  LinearSpeed : ℚ
  DistanceToPlayer : ℚ
  OwnerSteamID : Int
  OwnerDisplayName : String
  IsPowered : Bool
  PCU : Int

deriving instance DecidableEq for VRageRemoteGrid

/-- Grid list payload (src lines 239-241). -/
structure VRageRemoteGridList where
  Grids : List VRageRemoteGrid

deriving instance DecidableEq for VRageRemoteGridList

/-- Grid list response (src lines 235-238): the embedded envelope plus the
typed data payload. -/
structure VRageRemoteGridListResponse where
  base : VRageRemoteResponse
  Data : Option VRageRemoteGridList

deriving instance DecidableEq for VRageRemoteGridListResponse

/-- The back-reference wiring loop of `GetGrids` (src lines 547-549):
every returned grid gets the issuing client as its `client` field. -/
def wireGrids (c : VRageRemoteClient) (l : List VRageRemoteGrid) : List VRageRemoteGrid :=
  l.map (fun g => { g with client := some c })

/-- `GetGrids` after `scanResponse` has transported and JSON-decoded the
envelope (src lines 537-552).  `httpStatus` is the status code of the
HTTP response; the Go code never reads it, and it is kept here as an
explicit argument to state exactly that.  A `none` result models the Go
nil-pointer dereference panic on `response.Data.Grids` when the envelope
has neither error nor data. -/
def GetGridsHandle (c : VRageRemoteClient) (httpStatus : Int)
    (response : VRageRemoteGridListResponse) :
    Option (Except String VRageRemoteGridListResponse) :=
  match response.base.Error with
  | some e => some (Except.error e.Message)
  | none =>
    match response.Data with
    | none => none
    | some dataList =>
      some (Except.ok
        { base := response.base
          Data := some { Grids := wireGrids c dataList.Grids } })

/-- `StopServer` after `scanResponse` has transported and JSON-decoded the
envelope (src lines 413-423); same remark about `httpStatus`. -/
def StopServerHandle (httpStatus : Int) (response : VRageRemoteResponse) :
    Except String Unit :=
  match response.Error with
  | some e => Except.error e.Message
  | none => Except.ok ()

/-- `DeleteGrid` (src lines 553-563) up to the dispatch of its request:
a DELETE on `session/grids/` followed by the decimal entity id
(`fmt.Sprintf` with `%d`). -/
def DeleteGrid (h : HmacFn) (c : VRageRemoteClient) (entityID : Int) (date : String) :
    Except ScanError SignedRequest × VRageRemoteClient :=
  scanResponse h c "DELETE" ("session/grids/" ++ toString entityID) none none date

/-- `VRageRemoteGrid.Delete` (src lines 264-266): delegates to
`DeleteGrid` of the back-referenced client with the grid's own entity id;
`none` models the Go nil-pointer panic when the back-reference was never
wired. -/
def VRageRemoteGrid.Delete (h : HmacFn) (g : VRageRemoteGrid) (date : String) :
    Option (Except ScanError SignedRequest × VRageRemoteClient) :=
  g.client.map (fun c => DeleteGrid h c g.EntityID date)

/-- `SendChat` (src lines 637-647) up to the dispatch of its request: a
POST on `session/chat` whose body argument is the content string. -/
def SendChatRequest (h : HmacFn) (c : VRageRemoteClient) (content : String) (date : String) :
    Except ScanError SignedRequest × VRageRemoteClient :=
  scanResponse h c "POST" "session/chat" none (some content) date

/-- The grids carried by a grid list response, empty when the payload is
absent. -/
def gridsOf (r : VRageRemoteGridListResponse) : List VRageRemoteGrid :=
  match r.Data with
  | some l => l.Grids
  | none => []

/-- `GetNearestGridsIf` (src lines 211-229) after the grids have been
fetched: keep the grids matching the callback (in order), then
`sort.SliceStable` them by distance from the origin position.  The
comparison is the source's `Distance (origin) < Distance (origin)` carried
over to squared distances (see `distSqTo`). -/
def GetNearestGridsIfPure (origin : VRagePosition) (fnc : VRageRemoteGrid → Bool)
    (grids : List VRageRemoteGrid) : List VRageRemoteGrid :=
  sortT (fun a b => decide (distSqTo origin a.Position < distSqTo origin b.Position))
    (grids.filter fnc)

/-- `timeFromTicks` (src lines 40-42), as the unix-nanosecond value of the
`time.Time` it returns: `time.Unix(ticks/10e6-62135596800, ticks%10e6)`
has unix-nanoseconds `sec * 1e9 + nsec`.  Go's `10e6` is the constant
10000000 (one tick is 100ns), and Go integer division and remainder
truncate toward zero. -/
def timeFromTicksUnixNano (ticks : Int) : Int :=
  (ticks.tdiv 10000000 - 62135596800) * 1000000000 + ticks.tmod 10000000

/-- Go float-to-int64 conversion: truncation toward zero (for a rational
in lowest terms this is the truncating division of numerator by
denominator). -/
def ratTruncInt (q : ℚ) : Int :=
  q.num.tdiv q.den

/-- `ticksFromTime` (src lines 43-45) on a time with the given
unix-nanosecond value:
`int64(((float64(value.UnixNano()) / 1e9) + 62135596800) * 10e6)`, with
the float64 arithmetic idealised as exact rational arithmetic followed by
the truncating conversion.  (The real float64 computation additionally
loses precision of up to a few microseconds at current dates, which only
strengthens every divergence shown below.) -/
def ticksFromTimeIdeal (unixNano : Int) : Int :=
  ratTruncInt (((unixNano : ℚ) / 1000000000 + 62135596800) * 10000000)

/-- A chat message (src lines 316-321). -/
structure VRageChatMessage where
  SteamID : Int
  DisplayName : String
  Content : String
  Timestamp : String

deriving instance DecidableEq for VRageChatMessage

/-- Decimal digit value. -/
def digitVal (c : Char) : Option Nat :=
  if c.isDigit then some (c.toNat - 48) else none

/-- Accumulate the value of a decimal digit string; `none` on the first
non-digit. -/
def digitsValueAux (acc : Nat) : List Char → Option Nat
  | [] => some acc
  | c :: cs =>
    match digitVal c with
    | none => none
    | some d => digitsValueAux (10 * acc + d) cs

/-- Value of a non-empty all-digit string, `none` otherwise. -/
def digitsValue (l : List Char) : Option Nat :=
  if l.isEmpty then none else digitsValueAux 0 l

/-- Strip one leading sign, returning whether it was a minus. -/
def signSplit : List Char → Bool × List Char
  | '+' :: rest => (false, rest)
  | '-' :: rest => (true, rest)
  | l => (false, l)

/-- Go `strconv.ParseInt(s, 10, 64)`: the parsed value and a success
flag.  On a syntax error (empty string, empty digits after the sign, or
any non-digit character) Go returns value 0 with `ErrSyntax`; on a decimal
that does not fit in int64 it returns the clamped boundary value
(9223372036854775807 or -9223372036854775808) with `ErrRange`. -/
def parseInt64 (s : String) : Int × Bool :=
  let p := signSplit s.data
  match digitsValue p.2 with
  | none => (0, false)
  | some n =>
    if p.1 then
      if 9223372036854775808 < n then (-9223372036854775808, false)
      else (-(n : Int), true)
    else
      if 9223372036854775807 < n then (9223372036854775807, false)
      else ((n : Int), true)

/-- `VRageChatMessage.GetRealTimestamp` (src lines 323-326), as the
unix-nanosecond value of the returned time: the parse error is discarded
with `_` and whatever value `strconv.ParseInt` returned is fed to
`timeFromTicks`. -/
def GetRealTimestampUnixNano (message : VRageChatMessage) : Int :=
  timeFromTicksUnixNano (parseInt64 message.Timestamp).1

/-- Optional sign followed by one or more ASCII digits: the strings on
which `strconv.ParseInt(s, 10, 64)` does not report a syntax error
(though it may still report a range error). -/
def isSyntacticDecimal (s : String) : Bool :=
  let p := signSplit s.data
  !p.2.isEmpty && p.2.all Char.isDigit

/-- A trivial concrete HMAC instance used to evaluate the model on
concrete inputs (the protocol layer treats the primitive as opaque). -/
def hmacZero : HmacFn := fun _ _ => []

/-- Concrete client for witnesses: short base path, empty (valid base64)
key, nonce 5. -/
def wClient : VRageRemoteClient :=
  { BaseURL := "/v", RemoteAddress := "http://x", Key := "", nonce := 5 }

/-- `wClient` after one request. -/
def wClientAfter : VRageRemoteClient :=
  { BaseURL := "/v", RemoteAddress := "http://x", Key := "", nonce := 6 }

/-- The request `wClient` dispatches for GET `server` with `hmacZero`. -/
def wReq : SignedRequest :=
  { method := "GET"
    url := "http://x/v/server"
    methodURL := "/v/server"
    nonceUsed := 5
    authorization := "5:"
    dateHeader := "d"
    contentType := none
    body := none }

/-- A concrete non-empty query value set. -/
def wQuery : List (String × List String) := [("a", ["b"])]

/-- The request `wClient` dispatches for GET `server` with query
`wQuery`. -/
def wReqQ : SignedRequest :=
  { method := "GET"
    url := "http://x/v/server?a=b"
    methodURL := "/v/server?a=b"
    nonceUsed := 5
    authorization := "5:"
    dateHeader := "d"
    contentType := none
    body := none }

/-- The request `wClient` dispatches for `SendChat "hi"`. -/
def wReqChat : SignedRequest :=
  { method := "POST"
    url := "http://x/v/session/chat"
    methodURL := "/v/session/chat"
    nonceUsed := 5
    authorization := "5:"
    dateHeader := "d"
    contentType := some "application/json"
    body := some "\"hi\"" }

/-- A client whose remote address contains a control character, so that
`http.NewRequest` fails. -/
def cBadURL : VRageRemoteClient :=
  { BaseURL := "/v", RemoteAddress := "http://h\nost", Key := "", nonce := 7 }

/-- A client whose key is not valid base64. -/
def cBadKey : VRageRemoteClient :=
  { BaseURL := "/v", RemoteAddress := "http://x", Key := "!", nonce := 5 }

/-- A benign call specification for traces. -/
def wSpec : CallSpec :=
  { method := "GET", resource := "server", query := none, body := none, date := "d" }

/-- An envelope carrying a server error. -/
def envErr : VRageRemoteResponse :=
  { Error := some { Message := "not found" }, Meta := none }

/-- A grid list response whose envelope carries a server error. -/
def envErrGrid : VRageRemoteGridListResponse :=
  { base := envErr, Data := none }

/-- A bare unwired grid with entity id 42. -/
def gBase1 : VRageRemoteGrid :=
  { client := none, DisplayName := "g1", EntityID := 42, GridSize := "Large"
    BlocksCount := 1, Mass := 0, Position := { X := 0, Y := 0, Z := 0 }
    LinearSpeed := 0, DistanceToPlayer := 0, OwnerSteamID := 0
    OwnerDisplayName := "", IsPowered := false, PCU := 0 }

/-- A bare unwired grid with entity id 43. -/
def gBase2 : VRageRemoteGrid :=
  { gBase1 with DisplayName := "g2", EntityID := 43 }

/-- A successful grid list envelope with two grids. -/
def grOK : VRageRemoteGridListResponse :=
  { base := { Error := none, Meta := none }, Data := some { Grids := [gBase1, gBase2] } }

/-- `gBase1` wired to `wClient`. -/
def gWired1 : VRageRemoteGrid := { gBase1 with client := some wClient }

/-- `gBase2` wired to `wClient`. -/
def gWired2 : VRageRemoteGrid := { gBase2 with client := some wClient }

/-- What `GetGrids` returns for `grOK` issued through `wClient`. -/
def outVal : VRageRemoteGridListResponse :=
  { base := { Error := none, Meta := none }, Data := some { Grids := [gWired1, gWired2] } }

/-- int64 values in range are fixed by the wraparound. -/
theorem wrap64_eq_self (n : Int) (h1 : -9223372036854775808 ≤ n)
    (h2 : n ≤ 9223372036854775807) : wrap64 n = n := by
  unfold wrap64
  rw [Int.emod_eq_of_lt (by omega) (by omega)]
  omega

/-- Field extraction for a successfully built request: everything
`scanResponse` puts into the signed request, in terms of its inputs. -/
theorem scanResponse_ok_fields (h : HmacFn) (c : VRageRemoteClient) (m r : String)
    (q : Option (List (String × List String))) (b : Option String) (d : String)
    (req : SignedRequest) (c2 : VRageRemoteClient)
    (hok : scanResponse h c m r q b d = (Except.ok req, c2)) :
    req.method = m ∧
    req.methodURL = methodURLOf c.BaseURL r q ∧
    req.url = c.RemoteAddress ++ methodURLOf c.BaseURL r q ∧
    req.nonceUsed = c.nonce ∧
    req.dateHeader = d ∧
    req.contentType = (if b.isSome then some "application/json" else none) ∧
    req.body = b.map jsonMarshalString ∧
    c2 = { c with nonce := wrap64 (c.nonce + 1) } ∧
    ∃ keyBytes, base64Decode c.Key = some keyBytes ∧
      req.authorization = toString c.nonce ++ ":" ++
        base64Encode (h keyBytes (utf8Bytes (methodURLOf c.BaseURL r q ++ "\r\n" ++
          toString c.nonce ++ "\r\n" ++ d ++ "\r\n"))) := by
  simp only [scanResponse] at hok
  split at hok
  · split at hok
    · exact absurd hok (by simp)
    · rename_i keyBytes hkey
      simp only [Prod.mk.injEq, Except.ok.injEq] at hok
      obtain ⟨h1, h2⟩ := hok
      subst h1
      subst h2
      exact ⟨rfl, rfl, rfl, rfl, rfl, rfl, rfl, rfl, keyBytes, hkey, rfl⟩
  · exact absurd hok (by simp)

/-- State evolution of one `scanResponse` call: either request
construction fails and the client is untouched, or the nonce is
fetched-and-incremented, after which the call either fails on key
decoding or signs with the fetched nonce. -/
theorem scanResponse_state_cases (h : HmacFn) (c : VRageRemoteClient) (m r : String)
    (q : Option (List (String × List String))) (b : Option String) (d : String) :
    ((scanResponse h c m r q b d).1 = Except.error ScanError.newRequestError ∧
      (scanResponse h c m r q b d).2 = c) ∨
    ((scanResponse h c m r q b d).2 = { c with nonce := wrap64 (c.nonce + 1) } ∧
      ((scanResponse h c m r q b d).1 = Except.error ScanError.keyDecodingError ∨
        ∃ req, (scanResponse h c m r q b d).1 = Except.ok req ∧ req.nonceUsed = c.nonce)) := by
  simp only [scanResponse]
  split
  · split
    · exact Or.inr ⟨rfl, Or.inl rfl⟩
    · exact Or.inr ⟨rfl, Or.inr ⟨_, rfl, rfl⟩⟩
  · exact Or.inl ⟨rfl, rfl⟩

/-- Inserting permutes: the result is the element consed on the input, up
to permutation. -/
theorem insT_perm (lt : α → α → Bool) (x : α) (l : List α) :
    (insT lt x l).Perm (x :: l) := by
  induction l with
  | nil => exact List.Perm.refl _
  | cons y ys ih =>
    simp only [insT]
    split
    · exact (ih.cons y).trans (List.Perm.swap x y ys)
    · exact List.Perm.refl _

/-- Membership in an insertion. -/
theorem insT_mem (lt : α → α → Bool) (x a : α) (l : List α) :
    a ∈ insT lt x l ↔ a = x ∨ a ∈ l := by
  rw [(insT_perm lt x l).mem_iff, List.mem_cons]

/-- The stable sort permutes its input. -/
theorem sortT_perm (lt : α → α → Bool) (l : List α) : (sortT lt l).Perm l := by
  induction l with
  | nil => exact List.Perm.refl _
  | cons x xs ih =>
    exact (insT_perm lt x (sortT lt xs)).trans (ih.cons x)

/-- Inserting by a key comparison preserves sortedness by that key. -/
theorem insT_pairwise_key [LinearOrder β] (key : α → β) (x : α) (l : List α)
    (h : l.Pairwise (fun a b => key a ≤ key b)) :
    (insT (fun a b => decide (key a < key b)) x l).Pairwise (fun a b => key a ≤ key b) := by
  induction l with
  | nil => simp [insT]
  | cons y ys ih =>
    obtain ⟨hy, hys⟩ := List.pairwise_cons.mp h
    simp only [insT]
    split
    · rename_i hlt
      have hyx : key y < key x := of_decide_eq_true hlt
      refine List.pairwise_cons.mpr ⟨?_, ih hys⟩
      intro z hz
      rcases (insT_mem _ x z ys).mp hz with hzx | hzys
      · exact hzx ▸ le_of_lt hyx
      · exact hy z hzys
    · rename_i hnlt
      have hxy : key x ≤ key y := le_of_not_lt (of_decide_eq_false (Bool.not_eq_true _ ▸ hnlt))
      refine List.pairwise_cons.mpr ⟨?_, h⟩
      intro z hz
      rcases List.mem_cons.mp hz with hzy | hzys
      · exact hzy ▸ hxy
      · exact le_trans hxy (hy z hzys)

/-- The stable sort by a key comparison is sorted by that key. -/
theorem sortT_pairwise_key [LinearOrder β] (key : α → β) (l : List α) :
    (sortT (fun a b => decide (key a < key b)) l).Pairwise (fun a b => key a ≤ key b) := by
  induction l with
  | nil => simp [sortT]
  | cons x xs ih => exact insT_pairwise_key key x _ ih

/-- Inserting an element whose key equals `v` puts it in front of every
element of equal key: on the `key = v` fibre, insertion is cons. -/
theorem insT_filter_keyEq [LinearOrder β] (key : α → β) (x : α) (l : List α) (v : β)
    (hx : key x = v) :
    (insT (fun a b => decide (key a < key b)) x l).filter (fun a => decide (key a = v)) =
      x :: l.filter (fun a => decide (key a = v)) := by
  induction l with
  | nil => simp [insT, hx]
  | cons y ys ih =>
    simp only [insT]
    split
    · rename_i hlt
      have hyx : key y < key x := of_decide_eq_true hlt
      have hyv : ¬ key y = v := by
        rw [← hx]; exact ne_of_lt hyx
      simp [List.filter_cons, hyv, ih]
    · simp [List.filter_cons, hx]

/-- Inserting an element whose key differs from `v` leaves the `key = v`
fibre unchanged. -/
theorem insT_filter_keyNe [LinearOrder β] (key : α → β) (x : α) (l : List α) (v : β)
    (hx : ¬ key x = v) :
    (insT (fun a b => decide (key a < key b)) x l).filter (fun a => decide (key a = v)) =
      l.filter (fun a => decide (key a = v)) := by
  induction l with
  | nil => simp [insT, hx]
  | cons y ys ih =>
    simp only [insT]
    split
    · simp only [List.filter_cons, ih]
    · simp [List.filter_cons, hx]

/-- Stability of the sort: every equal-key fibre of the output is the
corresponding fibre of the input, in the original order. -/
theorem sortT_filter_key [LinearOrder β] (key : α → β) (l : List α) (v : β) :
    (sortT (fun a b => decide (key a < key b)) l).filter (fun a => decide (key a = v)) =
      l.filter (fun a => decide (key a = v)) := by
  induction l with
  | nil => rfl
  | cons x xs ih =>
    by_cases hx : key x = v
    · simp only [sortT, insT_filter_keyEq key x _ v hx, ih, List.filter_cons]
      simp [hx]
    · simp only [sortT, insT_filter_keyNe key x _ v hx, ih, List.filter_cons]
      simp [hx]


/-- Every nonce signed in a trace is at least the starting counter value,
as long as the counter cannot overflow during the trace. -/
theorem signedNonces_lb (h : HmacFn) (specs : List CallSpec) :
    ∀ c : VRageRemoteClient, -9223372036854775808 ≤ c.nonce →
      c.nonce + specs.length ≤ 9223372036854775807 →
      ∀ x ∈ signedNonces (runCalls h c specs).1, c.nonce ≤ x := by
  induction specs with
  | nil =>
    intro c _ _ x hx
    simp [runCalls, signedNonces] at hx
  | cons s rest ih =>
    intro c hlb hub x hx
    have hlen : ((s :: rest).length : Int) = (rest.length : Int) + 1 := by simp
    rw [hlen] at hub
    simp only [runCalls, signedNonces, List.filterMap_cons] at hx
    rcases scanResponse_state_cases h c s.method s.resource s.query s.body s.date with
      ⟨h1, h2⟩ | ⟨h2, hres⟩
    · rw [h1, h2] at hx
      exact ih c hlb (by omega) x hx
    · have hwrap : wrap64 (c.nonce + 1) = c.nonce + 1 :=
        wrap64_eq_self _ (by omega) (by omega)
      rw [h2, hwrap] at hx
      have hnext := ih { c with nonce := c.nonce + 1 } (by simp; omega) (by simp; omega)
      rcases hres with h1 | ⟨req, h1, hreqn⟩
      · rw [h1] at hx
        have := hnext x hx
        simp at this
        omega
      · rw [h1] at hx
        simp only at hx
        rcases List.mem_cons.mp hx with hhead | htail
        · rw [hhead, hreqn]
        · have := hnext x htail
          simp at this
          omega

/-- The digit accumulator fails on any list containing a non-digit. -/
theorem digitsValueAux_none (l : List Char) :
    ∀ acc : Nat, l.all Char.isDigit = false → digitsValueAux acc l = none := by
  induction l with
  | nil => intro acc hall; simp at hall
  | cons c cs ih =>
    intro acc hall
    by_cases hc : c.isDigit
    · have htail : cs.all Char.isDigit = false := by
        simp [List.all_cons, hc] at hall
        simp [hall]
      simp [digitsValueAux, digitVal, hc, ih _ htail]
    · simp [digitsValueAux, digitVal, hc]

/-- `digitsValue` fails when the character list is empty or contains a
non-digit. -/
theorem digitsValue_none (l : List Char)
    (hbad : l.isEmpty = true ∨ l.all Char.isDigit = false) :
    digitsValue l = none := by
  rcases hbad with hemp | hall
  · simp [digitsValue, hemp]
  · unfold digitsValue
    split
    · rfl
    · exact digitsValueAux_none l 0 hall

/-- C1: for every dispatched request, the Authorization digest is the
base64 encoding of the HMAC-SHA1 over exactly
`resourceURL ++ CRLF ++ nonce ++ CRLF ++ date ++ CRLF`, where the
resource URL starts at the base resource prefix (query string included,
remote address excluded), the HMAC key is the base64-decoding of the
configured key, and the Authorization header is `nonce:digest`. -/
theorem scanResponse_signature (h : HmacFn) (c : VRageRemoteClient) (m r : String)
    (q : Option (List (String × List String))) (b : Option String) (d : String)
    (req : SignedRequest) (c2 : VRageRemoteClient)
    (hok : scanResponse h c m r q b d = (Except.ok req, c2)) :
    ∃ keyBytes, base64Decode c.Key = some keyBytes ∧
      req.methodURL = methodURLOf c.BaseURL r q ∧
      req.url = c.RemoteAddress ++ req.methodURL ∧
      req.authorization = toString c.nonce ++ ":" ++
        base64Encode (h keyBytes (utf8Bytes (req.methodURL ++ "\r\n" ++
          toString c.nonce ++ "\r\n" ++ d ++ "\r\n"))) ∧
      req.dateHeader = d := by
  obtain ⟨-, hmu, hu, -, hd, -, -, -, kb, hk, ha⟩ :=
    scanResponse_ok_fields h c m r q b d req c2 hok
  refine ⟨kb, hk, hmu, ?_, ?_, hd⟩
  · rw [hmu]; exact hu
  · rw [hmu]; exact ha

/-- Witness for C1 on a concrete client and call. -/
theorem scanResponse_signature_witness :
    scanResponse hmacZero wClient "GET" "server" none none "d" = (Except.ok wReq, wClientAfter) ∧
    (∃ keyBytes, base64Decode wClient.Key = some keyBytes ∧
      wReq.methodURL = methodURLOf wClient.BaseURL "server" none ∧
      wReq.url = wClient.RemoteAddress ++ wReq.methodURL ∧
      wReq.authorization = toString wClient.nonce ++ ":" ++
        base64Encode (hmacZero keyBytes (utf8Bytes (wReq.methodURL ++ "\r\n" ++
          toString wClient.nonce ++ "\r\n" ++ "d" ++ "\r\n"))) ∧
      wReq.dateHeader = "d") :=
  ⟨by rfl,
   scanResponse_signature hmacZero wClient "GET" "server" none none "d" wReq wClientAfter (by rfl)⟩

/-- C3: once the envelope is decoded, a non-null envelope error makes the
operation fail with exactly the server's message (no data returned), and
a null envelope error makes it succeed with the decoded (and, for
`GetGrids`, wired) data; the HTTP status code plays no role in either
case. -/
theorem envelope_error_handling (c : VRageRemoteClient) (s1 s2 : Int)
    (gr : VRageRemoteGridListResponse) (sr : VRageRemoteResponse) :
    (∀ e, gr.base.Error = some e → GetGridsHandle c s1 gr = some (Except.error e.Message)) ∧
    (gr.base.Error = none → ∀ gl, gr.Data = some gl →
      GetGridsHandle c s1 gr = some (Except.ok
        { base := gr.base, Data := some { Grids := wireGrids c gl.Grids } })) ∧
    (∀ e, sr.Error = some e → StopServerHandle s2 sr = Except.error e.Message) ∧
    (sr.Error = none → StopServerHandle s2 sr = Except.ok ()) := by
  refine ⟨?_, ?_, ?_, ?_⟩
  · intro e he
    simp [GetGridsHandle, he]
  · intro he gl hgl
    simp [GetGridsHandle, he, hgl]
  · intro e he
    simp [StopServerHandle, he]
  · intro he
    simp [StopServerHandle, he]

/-- Witness for C3: the spec's synthetic envelope with message
"not found", under two different HTTP status codes. -/
theorem envelope_error_handling_witness :
    GetGridsHandle wClient 200 envErrGrid = some (Except.error "not found") ∧
    StopServerHandle 404 envErr = Except.error "not found" :=
  ⟨(envelope_error_handling wClient 200 404 envErrGrid envErr).1 { Message := "not found" } rfl,
   (envelope_error_handling wClient 200 404 envErrGrid envErr).2.2.1 { Message := "not found" } rfl⟩

/-- C4: every grid returned by a successful `GetGrids` is wired to the
issuing client before being returned, and its `Delete` issues, through
that client, a DELETE on `session/grids/` followed by the grid's own
entity id. -/
theorem getGrids_backref_delete (h : HmacFn) (c : VRageRemoteClient) (st : Int)
    (gr : VRageRemoteGridListResponse) (out : VRageRemoteGridListResponse) (d : String)
    (hres : GetGridsHandle c st gr = some (Except.ok out)) :
    ∀ g ∈ gridsOf out, g.client = some c ∧
      VRageRemoteGrid.Delete h g d = some (DeleteGrid h c g.EntityID d) ∧
      ∀ req c2, DeleteGrid h c g.EntityID d = (Except.ok req, c2) →
        req.method = "DELETE" ∧
        req.methodURL = c.BaseURL ++ "/" ++ ("session/grids/" ++ toString g.EntityID) := by
  intro g hg
  unfold GetGridsHandle at hres
  split at hres
  · simp at hres
  · split at hres
    · simp at hres
    · rename_i dataList hdata
      simp only [Option.some.injEq, Except.ok.injEq] at hres
      subst hres
      simp only [gridsOf, wireGrids, List.mem_map] at hg
      obtain ⟨g0, hg0, rfl⟩ := hg
      refine ⟨rfl, rfl, ?_⟩
      intro req c2 hok
      unfold DeleteGrid at hok
      have hfields := scanResponse_ok_fields h c "DELETE"
        ("session/grids/" ++ toString ({ g0 with client := some c } : VRageRemoteGrid).EntityID)
        none none d req c2 hok
      refine ⟨hfields.1, ?_⟩
      rw [hfields.2.1]
      simp [methodURLOf]

/-- Witness for C4: a synthetic two-grid envelope; the first returned
grid is wired to the issuing client and its delete call is the DELETE on
its own id. -/
theorem getGrids_backref_delete_witness :
    GetGridsHandle wClient 200 grOK = some (Except.ok outVal) ∧
    gWired1 ∈ gridsOf outVal ∧
    gWired1.client = some wClient ∧
    VRageRemoteGrid.Delete hmacZero gWired1 "d" = some (DeleteGrid hmacZero wClient gWired1.EntityID "d") :=
  ⟨by rfl, by decide,
   ((getGrids_backref_delete hmacZero wClient 200 grOK outVal "d" (by rfl)) gWired1 (by decide)).1,
   ((getGrids_backref_delete hmacZero wClient 200 grOK outVal "d" (by rfl)) gWired1 (by decide)).2.1⟩

/-- Counterexample to C2 as stated: a client constructed at clock reading
2^63 - 1 (`time.Now().UnixNano()` is int64, so this is a legal seed)
signs its first two calls with 9223372036854775807 and then, after the
int64 wraparound of `client.nonce++`, with -9223372036854775808 — the
signed nonce sequence is not strictly increasing. -/
theorem nonce_strict_increase_cex :
    signedNonces (runCalls hmacZero
        (NewVRageRemoteClient "http://x" "" 9223372036854775807) [wSpec, wSpec]).1 =
      [9223372036854775807, -9223372036854775808] ∧
    ¬ (signedNonces (runCalls hmacZero
        (NewVRageRemoteClient "http://x" "" 9223372036854775807) [wSpec, wSpec]).1).Pairwise
      (fun a b => a < b) := by
  have h1 : signedNonces (runCalls hmacZero
      (NewVRageRemoteClient "http://x" "" 9223372036854775807) [wSpec, wSpec]).1 =
      [9223372036854775807, -9223372036854775808] := by rfl
  refine ⟨h1, ?_⟩
  rw [h1]
  intro hp
  have := (List.pairwise_cons.mp hp).1 (-9223372036854775808) (by simp)
  omega

/-- C2 (amended): the nonces signed by any serialised trace of calls
through one client are strictly increasing as long as the int64 counter
cannot overflow during the trace (the global `requestMutex` serialises
concurrent callers, so every concurrent execution is one such trace). -/
theorem nonce_strict_increase (h : HmacFn) (specs : List CallSpec) :
    ∀ c : VRageRemoteClient, -9223372036854775808 ≤ c.nonce →
      c.nonce + specs.length ≤ 9223372036854775807 →
      (signedNonces (runCalls h c specs).1).Pairwise (fun a b => a < b) := by
  induction specs with
  | nil =>
    intro c _ _
    simp [runCalls, signedNonces]
  | cons s rest ih =>
    intro c hlb hub
    have hlen : ((s :: rest).length : Int) = (rest.length : Int) + 1 := by simp
    rw [hlen] at hub
    simp only [runCalls]
    rcases scanResponse_state_cases h c s.method s.resource s.query s.body s.date with
      ⟨h1, h2⟩ | ⟨h2, hres⟩
    · rw [h1, h2]
      simp only [signedNonces, List.filterMap_cons]
      exact ih c hlb (by omega)
    · have hwrap : wrap64 (c.nonce + 1) = c.nonce + 1 :=
        wrap64_eq_self _ (by omega) (by omega)
      rw [h2, hwrap]
      have hnext := ih { c with nonce := c.nonce + 1 } (by simp; omega) (by simp; omega)
      rcases hres with h1 | ⟨req, h1, hreqn⟩
      · rw [h1]
        simp only [signedNonces, List.filterMap_cons]
        exact hnext
      · rw [h1]
        simp only [signedNonces, List.filterMap_cons]
        refine List.pairwise_cons.mpr ⟨?_, hnext⟩
        intro z hz
        have hlbz := signedNonces_lb h rest { c with nonce := c.nonce + 1 }
          (by simp; omega) (by simp; omega) z hz
        simp at hlbz
        omega

/-- Witness for C2 on a concrete client and a two-call trace. -/
theorem nonce_strict_increase_witness :
    (-9223372036854775808 : Int) ≤ (NewVRageRemoteClient "http://x" "" 5).nonce ∧
    (NewVRageRemoteClient "http://x" "" 5).nonce + ([wSpec, wSpec] : List CallSpec).length ≤
      9223372036854775807 ∧
    (signedNonces (runCalls hmacZero (NewVRageRemoteClient "http://x" "" 5)
        [wSpec, wSpec]).1).Pairwise (fun a b => a < b) :=
  ⟨by decide, by decide,
   nonce_strict_increase hmacZero [wSpec, wSpec] (NewVRageRemoteClient "http://x" "" 5)
     (by decide) (by decide)⟩

set_option maxHeartbeats 1000000 in
/-- C5: the nearest-grids query returns exactly the candidates satisfying
the predicate (as a permutation of the filtered list), ordered by
non-decreasing distance from the origin (squared distances order
identically to distances), and every fibre of equal distance keeps its
original relative order — the sort is stable, so the output is a
deterministic function of the input order. -/
theorem getNearestGridsIf_spec (origin : VRagePosition) (fnc : VRageRemoteGrid → Bool)
    (grids : List VRageRemoteGrid) :
    (GetNearestGridsIfPure origin fnc grids).Perm (grids.filter fnc) ∧
    (GetNearestGridsIfPure origin fnc grids).Pairwise
      (fun a b => distSqTo origin a.Position ≤ distSqTo origin b.Position) ∧
    ∀ v : ℚ, (GetNearestGridsIfPure origin fnc grids).filter
        (fun g => decide (distSqTo origin g.Position = v)) =
      (grids.filter fnc).filter (fun g => decide (distSqTo origin g.Position = v)) := by
  refine ⟨sortT_perm _ _, ?_, ?_⟩
  · exact sortT_pairwise_key (fun g => distSqTo origin g.Position) (grids.filter fnc)
  · intro v
    exact sortT_filter_key (fun g => distSqTo origin g.Position) (grids.filter fnc) v

/-- C6 is false of the code: evaluating the round trip at the wall-clock
time 2021-01-01T00:00:00.5Z (unix-nanoseconds 1609459200500000000) the
ticks are 637450560005000000 but `timeFromTicks` hands the 100ns tick
remainder to `time.Unix` as a plain nanosecond count, so the round trip
returns unix-nanoseconds 1609459200005000000 — off by 495000000 ns, far
beyond the 100 ns tick resolution the claim allows. -/
theorem ticks_roundtrip_bug :
    ticksFromTimeIdeal 1609459200500000000 = 637450560005000000 ∧
    timeFromTicksUnixNano 637450560005000000 = 1609459200005000000 ∧
    1609459200500000000 - timeFromTicksUnixNano (ticksFromTimeIdeal 1609459200500000000) =
      495000000 ∧
    (100 : Int) < 495000000 := by
  have hq : (((1609459200500000000 : Int) : ℚ) / 1000000000 + 62135596800) * 10000000 =
      (637450560005000000 : ℚ) := by norm_num
  have h1 : ticksFromTimeIdeal 1609459200500000000 = 637450560005000000 := by
    unfold ticksFromTimeIdeal ratTruncInt
    rw [hq]
    simp only [Rat.num_ofNat, Rat.den_ofNat]
    decide
  refine ⟨h1, by decide, ?_, by decide⟩
  rw [h1]
  decide

/-- Counterexample to C7 as stated: the body `SendChat` puts on the wire
for content "hi" is the JSON string literal (quote, h, i, quote), which is
not the raw content bytes. -/
theorem sendChat_raw_body_cex :
    (SendChatRequest hmacZero wClient "hi" "d").1 = Except.ok wReqChat ∧
    wReqChat.body = some "\"hi\"" ∧
    ("\"hi\"" : String) ≠ "hi" := by
  refine ⟨by rfl, by rfl, by decide⟩

/-- C7 (amended): `SendChat` posts to `session/chat` with the content
serialised by `json.Marshal` — a quoted, escaped JSON string literal with
`Content-Type: application/json` — rather than the raw content bytes. -/
theorem sendChat_json_body (h : HmacFn) (c : VRageRemoteClient) (content d : String)
    (req : SignedRequest) (c2 : VRageRemoteClient)
    (hok : SendChatRequest h c content d = (Except.ok req, c2)) :
    req.method = "POST" ∧
    req.methodURL = c.BaseURL ++ "/" ++ "session/chat" ∧
    req.body = some (jsonMarshalString content) ∧
    req.contentType = some "application/json" := by
  unfold SendChatRequest at hok
  have hfields := scanResponse_ok_fields h c "POST" "session/chat" none (some content) d req c2 hok
  refine ⟨hfields.1, ?_, ?_, ?_⟩
  · rw [hfields.2.1]
    simp [methodURLOf]
  · rw [hfields.2.2.2.2.2.2.1]
    rfl
  · rw [hfields.2.2.2.2.2.1]
    rfl

/-- Witness for C7 on a concrete client and message. -/
theorem sendChat_json_body_witness :
    SendChatRequest hmacZero wClient "hi" "d" = (Except.ok wReqChat, wClientAfter) ∧
    (wReqChat.method = "POST" ∧
     wReqChat.methodURL = wClient.BaseURL ++ "/" ++ "session/chat" ∧
     wReqChat.body = some (jsonMarshalString "hi") ∧
     wReqChat.contentType = some "application/json") :=
  ⟨by rfl, sendChat_json_body hmacZero wClient "hi" "d" wReqChat wClientAfter (by rfl)⟩

/-- C8: a dispatched request built from an absent or empty query-value
set has no question mark in its URL (given that base path and resource
contain none, as all the client's fixed paths do), and a non-empty query
set yields exactly the resource path, a question mark, and the
URL-encoded query string. -/
theorem query_url_construction (h : HmacFn) (c : VRageRemoteClient) (m r : String)
    (b : Option String) (d : String) :
    (∀ q : Option (List (String × List String)), ∀ req c2,
      (q = none ∨ q = some []) →
      scanResponse h c m r q b d = (Except.ok req, c2) →
      ¬ '?' ∈ (c.BaseURL ++ "/" ++ r).data →
      ¬ '?' ∈ req.methodURL.data) ∧
    (∀ qs : List (String × List String), ∀ req c2, qs ≠ [] →
      scanResponse h c m r (some qs) b d = (Except.ok req, c2) →
      req.methodURL = c.BaseURL ++ "/" ++ r ++ "?" ++ urlValuesEncode qs) := by
  constructor
  · intro q req c2 hq hok hbase
    have hmu := (scanResponse_ok_fields h c m r q b d req c2 hok).2.1
    rw [hmu]
    rcases hq with rfl | rfl
    · simpa [methodURLOf] using hbase
    · simpa [methodURLOf] using hbase
  · intro qs req c2 hqs hok
    have hmu := (scanResponse_ok_fields h c m r (some qs) b d req c2 hok).2.1
    rw [hmu]
    have hlen : 0 < qs.length := List.length_pos.mpr hqs
    simp [methodURLOf, hlen]

/-- Witness for C8: the same client and resource once without and once
with a query-value set. -/
theorem query_url_construction_witness :
    scanResponse hmacZero wClient "GET" "server" none none "d" = (Except.ok wReq, wClientAfter) ∧
    scanResponse hmacZero wClient "GET" "server" (some wQuery) none "d" =
      (Except.ok wReqQ, wClientAfter) ∧
    ¬ '?' ∈ wReq.methodURL.data ∧
    wReqQ.methodURL = wClient.BaseURL ++ "/" ++ "server" ++ "?" ++ urlValuesEncode wQuery :=
  ⟨by rfl, by rfl,
   (query_url_construction hmacZero wClient "GET" "server" none "d").1 none wReq wClientAfter
     (Or.inl rfl) (by rfl) (by decide),
   (query_url_construction hmacZero wClient "GET" "server" none "d").2 wQuery wReqQ wClientAfter
     (by decide) (by rfl)⟩

/-- Counterexample to C9 as stated: a call whose request construction
fails (a control character in the remote address makes `http.NewRequest`
fail) returns an error with the nonce counter untouched, so not every
failing call increments the counter. -/
theorem nonce_increment_on_failure_cex :
    (scanResponse hmacZero cBadURL "GET" "server" none none "d").1 =
      Except.error ScanError.newRequestError ∧
    (scanResponse hmacZero cBadURL "GET" "server" none none "d").2.nonce = 7 ∧
    cBadURL.nonce = 7 :=
  ⟨by rfl, by rfl, rfl⟩

/-- C9 (amended): `scanResponse` increments the nonce counter by exactly
one (modulo int64 wraparound) on every call that passes request
construction, even when the call then fails; failures during request
construction leave the counter untouched.  In particular a key that is
not valid base64 makes the call fail with the key-decoding error — before
any HTTP request exists to dispatch — with the counter already
advanced. -/
theorem nonce_increment_paths (h : HmacFn) (c : VRageRemoteClient) (m r : String)
    (q : Option (List (String × List String))) (b : Option String) (d : String) :
    (newRequestOk m (c.RemoteAddress ++ methodURLOf c.BaseURL r q) = false →
      scanResponse h c m r q b d = (Except.error ScanError.newRequestError, c)) ∧
    (newRequestOk m (c.RemoteAddress ++ methodURLOf c.BaseURL r q) = true →
      (scanResponse h c m r q b d).2 = { c with nonce := wrap64 (c.nonce + 1) }) ∧
    (newRequestOk m (c.RemoteAddress ++ methodURLOf c.BaseURL r q) = true →
      base64Decode c.Key = none →
      (scanResponse h c m r q b d).1 = Except.error ScanError.keyDecodingError) := by
  refine ⟨?_, ?_, ?_⟩
  · intro hno
    simp [scanResponse, hno]
  · intro hyes
    simp only [scanResponse, hyes, if_true]
    split <;> rfl
  · intro hyes hkey
    simp [scanResponse, hyes, hkey]

/-- Witness for C9: a concrete client with the invalid base64 key "!". -/
theorem nonce_increment_paths_witness :
    newRequestOk "GET" (cBadKey.RemoteAddress ++ methodURLOf cBadKey.BaseURL "server" none) =
      true ∧
    base64Decode cBadKey.Key = none ∧
    (scanResponse hmacZero cBadKey "GET" "server" none none "d").1 =
      Except.error ScanError.keyDecodingError ∧
    (scanResponse hmacZero cBadKey "GET" "server" none none "d").2 =
      { cBadKey with nonce := wrap64 (cBadKey.nonce + 1) } :=
  ⟨by rfl, by rfl,
   (nonce_increment_paths hmacZero cBadKey "GET" "server" none none "d").2.2 (by rfl) (by rfl),
   (nonce_increment_paths hmacZero cBadKey "GET" "server" none none "d").2.1 (by rfl)⟩

/-- Counterexample to C10 as stated: the timestamp "9223372036854775808"
(2^63) is not a parseable int64, yet `strconv.ParseInt` returns the
clamped boundary 9223372036854775807 with its range error, the error is
discarded, and `GetRealTimestamp` returns the time of the clamped tick
value — not the time of tick 0. -/
theorem getRealTimestamp_range_cex :
    parseInt64 "9223372036854775808" = (9223372036854775807, false) ∧
    GetRealTimestampUnixNano
        { SteamID := 0, DisplayName := "", Content := "", Timestamp := "9223372036854775808" } =
      timeFromTicksUnixNano 9223372036854775807 ∧
    timeFromTicksUnixNano 9223372036854775807 ≠ timeFromTicksUnixNano 0 :=
  ⟨by decide, by rfl, by decide⟩

/-- C10 (amended): for a chat message whose timestamp is not even
syntactically a decimal integer (for a syntactically valid decimal
overflowing int64 the parse instead yields the clamped boundary value),
`GetRealTimestamp` reports no error and silently returns the time
corresponding to tick value 0. -/
theorem getRealTimestamp_syntax_zero (message : VRageChatMessage)
    (hbad : isSyntacticDecimal message.Timestamp = false) :
    GetRealTimestampUnixNano message = timeFromTicksUnixNano 0 := by
  have hnone : digitsValue (signSplit message.Timestamp.data).2 = none := by
    apply digitsValue_none
    unfold isSyntacticDecimal at hbad
    rcases Bool.and_eq_false_iff.mp hbad with h1 | h2
    · left
      simpa using h1
    · right
      exact h2
  simp [GetRealTimestampUnixNano, parseInt64, hnone]

/-- Witness for C10 on a concrete non-numeric timestamp. -/
theorem getRealTimestamp_syntax_zero_witness :
    isSyntacticDecimal "abc" = false ∧
    GetRealTimestampUnixNano
        { SteamID := 0, DisplayName := "", Content := "", Timestamp := "abc" } =
      timeFromTicksUnixNano 0 :=
  ⟨by decide, getRealTimestamp_syntax_zero _ (by decide)⟩
